import Mathlib

/- A shallow embedding of src/gui.py from the Miravalier/libmira repository.

   The curses pixel dictionary self.pixels is modelled as an association
   list with the most recent write first; alookup returns the first
   matching binding, so it observes exactly the state of the dictionary.
   Machine integers (coordinates, curses attributes, key codes) are
   modelled as Int; note that the Lean Int division `/` rounds toward
   negative infinity for a positive divisor, exactly like the Python
   arithmetic right shift `>> 1` used by get_origin_reference.
   Application hooks mutate the state up to the point where they return
   or raise, so a hook is a function to a pair of the resulting state and
   an optional exception. -/

namespace LibMira

-- Direction constants (src/gui.py)
def LEFT : Int := 0

def UP_LEFT : Int := 1

def UP : Int := 2

def UP_RIGHT : Int := 3

def RIGHT : Int := 4

def DOWN_RIGHT : Int := 5

def DOWN : Int := 6

def DOWN_LEFT : Int := 7

-- Origin constants (src/gui.py)
def TOP_LEFT : Int := 8

def TOP_CENTER : Int := 9

def TOP_RIGHT : Int := 10

def CENTER_LEFT : Int := 11

def CENTER : Int := 12

def CENTER_RIGHT : Int := 13

def BOTTOM_LEFT : Int := 14

def BOTTOM_CENTER : Int := 15

def BOTTOM_RIGHT : Int := 16

-- curses.A_NORMAL
def A_NORMAL : Int := 0

-- A pixel is a display character together with a curses attribute.
abbrev Pixel := Char × Int

-- BLANK_PIXEL = (space, curses.A_NORMAL)
def BLANK_PIXEL : Pixel := (' ', A_NORMAL)

/-- The mutable state of a GUI object: the running flag, the screen
dimensions resampled by the render thread, the pixel buffer, and the
log sink (modelled as the list of appended lines). -/
structure GUIState where
  running : Bool
  screen_width : Int
  screen_height : Int
  pixels : List ((Int × Int) × Pixel)
  log : List String
deriving DecidableEq

/-- Lookup in the association-list model of a Python dict: the first
(most recently written) binding of the key wins. -/
def alookup {α : Type} : List ((Int × Int) × α) → (Int × Int) → Option α
  | [], _ => none
  | (k, v) :: rest, key => if key = k then some v else alookup rest key

/-- The state made by the GUI constructor: the running flag is true and
the pixel buffer is empty. The screen dimensions are not assigned until
the first render tick resamples them; they are modelled as 0 here. -/
def initial : GUIState :=
  { running := true, screen_width := 0, screen_height := 0, pixels := [], log := [] }

/-- The method GUI.stop: tell the threads to end. -/
def stop (g : GUIState) : GUIState :=
  { g with running := false }

/-- The method GUI.draw: updates a single pixel, translating from a regular x and y
coord pair to an upside down y, x pair for curses. Out-of-bounds
coordinates are ignored. -/
def draw (g : GUIState) (coord : Int × Int) (character : Char) (attr : Int) : GUIState :=
  let x := coord.1
  let y := coord.2
  if 0 ≤ x ∧ x < g.screen_width ∧ 0 ≤ y ∧ y < g.screen_height then
    let curses_y := g.screen_height - (y + 1)
    let curses_coord := (curses_y, x)
    { g with pixels := (curses_coord, (character, attr)) :: g.pixels }
  else
    g

/-- The method GUI.get_directional_reference: maps a direction constant to its unit
step, raising ValueError (modelled as Except.error) on anything else. -/
def get_directional_reference (direction : Int) : Except String (Int × Int) :=
  if direction = LEFT then .ok (-1, 0)
  else if direction = UP_LEFT then .ok (-1, 1)
  else if direction = UP then .ok (0, 1)
  else if direction = UP_RIGHT then .ok (1, 1)
  else if direction = RIGHT then .ok (1, 0)
  else if direction = DOWN_RIGHT then .ok (1, -1)
  else if direction = DOWN then .ok (0, -1)
  else if direction = DOWN_LEFT then .ok (-1, -1)
  else .error ("Unknown direction " ++ toString direction)

/-- The method GUI.get_origin_reference: maps an origin constant to its offset
against the current screen dimensions, raising ValueError (modelled as
Except.error) on anything else. The Python shift right by one is the
Lean Int division by two. -/
def get_origin_reference (g : GUIState) (origin : Int) : Except String (Int × Int) :=
  if origin = TOP_LEFT then .ok (0, g.screen_height - 1)
  else if origin = TOP_CENTER then .ok (g.screen_width / 2, g.screen_height - 1)
  else if origin = TOP_RIGHT then .ok (g.screen_width - 1, g.screen_height - 1)
  else if origin = CENTER_LEFT then .ok (0, g.screen_height / 2)
  else if origin = CENTER then .ok (g.screen_width / 2, g.screen_height / 2)
  else if origin = CENTER_RIGHT then .ok (g.screen_width - 1, g.screen_height / 2)
  else if origin = BOTTOM_LEFT then .ok (0, 0)
  else if origin = BOTTOM_CENTER then .ok (g.screen_width / 2, 0)
  else if origin = BOTTOM_RIGHT then .ok (g.screen_width - 1, 0)
  else .error ("Unknown origin " ++ toString origin)

/-- The for loop inside GUI.draw_string: for i, character in
enumerate(string), draw the character at
(origin_x + (x + directional_x * i), origin_y + (y + directional_y * i)). -/
def drawChars (origin_x origin_y x y directional_x directional_y attr : Int) :
    GUIState → Nat → List Char → GUIState
  | g, _, [] => g
  | g, i, character :: rest =>
    drawChars origin_x origin_y x y directional_x directional_y attr
      (draw g
        (origin_x + (x + directional_x * (i : Int)),
         origin_y + (y + directional_y * (i : Int)))
        character attr)
      (i + 1) rest

/-- The method GUI.draw_string: updates a string of pixels, ignoring those that go
out of the bounds of the screen. A ValueError from origin or direction
resolution propagates out of the call. -/
def draw_string (g : GUIState) (coord : Int × Int) (string : List Char)
    (attr : Int) (direction : Int) (origin : Int) : Except String GUIState := do
  let x := coord.1
  let y := coord.2
  let originRef ← get_origin_reference g origin
  let directionalRef ← get_directional_reference direction
  return drawChars originRef.1 originRef.2 x y directionalRef.1 directionalRef.2 attr
    g 0 string

/-- An exception raised by an application hook: whether it is a
KeyboardInterrupt or EOFError, its type, and its message. -/
structure Exc where
  interrupt : Bool
  ty : String
  msg : String
deriving DecidableEq

/-- A hook mutates the state up to the point where it returns or raises;
the second component is the exception, if one was raised. -/
abbrev Hook := GUIState → GUIState × Option Exc

/-- The three overridable per-frame hooks of the GUI class. -/
structure Hooks where
  pre_render : Hook
  render : Hook
  post_render : Hook

/-- The log line written by the render thread for a hook exception:
"Render thread exception, type: message". -/
def renderExcMsg (e : Exc) : String :=
  "Render thread exception, " ++ e.ty ++ ": " ++ e.msg

/-- The log line written by the input thread for a non-interrupt hook
exception: "Input thread exception, type: message". -/
def inputExcMsg (e : Exc) : String :=
  "Input thread exception, " ++ e.ty ++ ": " ++ e.msg

/-- The log line written by the input thread when a KeyboardInterrupt or
EOFError is caught. -/
def interruptLogMsg : String :=
  "Input thread received Keyboard Interrupt / EOF"

/-- The body of the try block of one render_thread iteration: resample
the screen size from the curses screen (passed in as dims = (rows,
columns)), run the three render hooks in order, flush the pixels to the
screen (per-cell write failures are swallowed and the GUI state is not
changed), then zero the pixels. The second component is the exception
that escaped the tick, if any; state mutations made before the raise
persist. -/
def runTick (hooks : Hooks) (dims : Int × Int) (g : GUIState) : GUIState × Option Exc :=
  let g1 := { g with screen_height := dims.1, screen_width := dims.2 }
  match hooks.pre_render g1 with
  | (g2, some e) => (g2, some e)
  | (g2, none) =>
    match hooks.render g2 with
    | (g3, some e) => (g3, some e)
    | (g3, none) =>
      match hooks.post_render g3 with
      | (g4, some e) => (g4, some e)
      | (g4, none) => ({ g4 with pixels := [] }, none)

/-- One full render_thread loop iteration: run the tick; the except
BaseException clause stops the gui and logs the exception with its type
and message. -/
def renderStep (hooks : Hooks) (dims : Int × Int) (g : GUIState) : GUIState :=
  match runTick hooks dims g with
  | (g1, none) => g1
  | (g1, some e) => { g1 with running := false, log := g1.log ++ [renderExcMsg e] }

/-- The render_thread while loop, fuel-bounded, with the per-tick screen
sizes supplied as a stream indexed by the tick counter n. -/
def renderLoop (hooks : Hooks) (dims : Nat → Int × Int) : Nat → Nat → GUIState → GUIState
  | 0, _, g => g
  | fuel + 1, n, g =>
    if g.running then renderLoop hooks dims fuel (n + 1) (renderStep hooks (dims n) g)
    else g

/-- One input_thread loop iteration for a key read result: -1 (timeout)
continues, otherwise the keypress hook runs; a KeyboardInterrupt or
EOFError from it is caught first and logged without its type and message,
and any other exception is caught by the except BaseException clause and
logged with its type and message. Both stop the gui. -/
def inputStep (keypress : GUIState → Int → GUIState × Option Exc) (key : Int)
    (g : GUIState) : GUIState :=
  if key = -1 then g
  else
    match keypress g key with
    | (g1, none) => g1
    | (g1, some e) =>
      if e.interrupt then { g1 with running := false, log := g1.log ++ [interruptLogMsg] }
      else { g1 with running := false, log := g1.log ++ [inputExcMsg e] }

/-- The input_thread while loop, fuel-bounded, with the key read results
supplied as a stream indexed by the iteration counter n. -/
def inputLoop (keypress : GUIState → Int → GUIState × Option Exc) (keys : Nat → Int) :
    Nat → Nat → GUIState → GUIState
  | 0, _, g => g
  | fuel + 1, n, g =>
    if g.running then inputLoop keypress keys fuel (n + 1) (inputStep keypress (keys n) g)
    else g

/-- The sequence of (device cell, pixel) writes the render thread
performs when it outputs the pixels to the screen: for y in
range(height), for x in range(width), the buffer entry at (y, x) if
present, else BLANK_PIXEL. -/
def flushWrites (g : GUIState) : List ((Int × Int) × Pixel) :=
  (List.range g.screen_height.toNat).flatMap fun (y : Nat) =>
    (List.range g.screen_width.toNat).map fun (x : Nat) =>
      (((y : Int), (x : Int)), (alookup g.pixels ((y : Int), (x : Int))).getD BLANK_PIXEL)

/-- A concrete 80 by 24 state used to instantiate theorems. -/
def demoState : GUIState :=
  { initial with screen_width := 80, screen_height := 24 }

/-- The logical coordinate draw_string targets for character index i:
(origin_x + (x + directional_x * i), origin_y + (y + directional_y * i)),
exactly the expression passed to draw inside the loop. -/
def targetCoord (ox oy x y dx dy : Int) (i : Nat) : Int × Int :=
  (ox + (x + dx * (i : Int)), oy + (y + dy * (i : Int)))

/-- The bounds test draw applies to a logical coordinate. -/
abbrev inBoundsCoord (g : GUIState) (c : Int × Int) : Prop :=
  0 ≤ c.1 ∧ c.1 < g.screen_width ∧ 0 ≤ c.2 ∧ c.2 < g.screen_height

/-- The curses device key draw computes for a logical coordinate:
(height - (y + 1), x). -/
def deviceKey (g : GUIState) (c : Int × Int) : Int × Int :=
  (g.screen_height - (c.2 + 1), c.1)

/- ### Basic lemmas about draw -/

theorem draw_of_not_in_bounds (g : GUIState) (coord : Int × Int) (ch : Char) (a : Int)
    (h : ¬(0 ≤ coord.1 ∧ coord.1 < g.screen_width ∧ 0 ≤ coord.2 ∧ coord.2 < g.screen_height)) :
    draw g coord ch a = g := by
  simp only [draw]
  rw [if_neg h]

theorem draw_screen_width (g : GUIState) (coord : Int × Int) (ch : Char) (a : Int) :
    (draw g coord ch a).screen_width = g.screen_width := by
  simp only [draw]
  split <;> rfl

theorem draw_screen_height (g : GUIState) (coord : Int × Int) (ch : Char) (a : Int) :
    (draw g coord ch a).screen_height = g.screen_height := by
  simp only [draw]
  split <;> rfl

theorem draw_running (g : GUIState) (coord : Int × Int) (ch : Char) (a : Int) :
    (draw g coord ch a).running = g.running := by
  simp only [draw]
  split <;> rfl

theorem draw_writes (g : GUIState) (x y : Int) (ch : Char) (a : Int)
    (h : 0 ≤ x ∧ x < g.screen_width ∧ 0 ≤ y ∧ y < g.screen_height) :
    alookup (draw g (x, y) ch a).pixels (g.screen_height - (y + 1), x) = some (ch, a) := by
  simp only [draw]
  rw [if_pos h]
  simp [alookup]

theorem draw_preserves_other (g : GUIState) (x y : Int) (ch : Char) (a : Int)
    (k : Int × Int) (hk : k ≠ (g.screen_height - (y + 1), x)) :
    alookup (draw g (x, y) ch a).pixels k = alookup g.pixels k := by
  simp only [draw]
  split
  · simp only [alookup]
    rw [if_neg hk]
  · rfl

/- ### Lemmas about alookup over the flush write list -/

theorem alookup_append_some {α : Type} (l1 l2 : List ((Int × Int) × α)) (k : Int × Int)
    (v : α) (h : alookup l1 k = some v) : alookup (l1 ++ l2) k = some v := by
  induction l1 with
  | nil => simp [alookup] at h
  | cons p rest ih =>
    obtain ⟨pk, pv⟩ := p
    simp only [alookup, List.cons_append] at h ⊢
    by_cases hk : k = pk
    · rw [if_pos hk] at h ⊢
      exact h
    · rw [if_neg hk] at h ⊢
      exact ih h

theorem alookup_append_none {α : Type} (l1 l2 : List ((Int × Int) × α)) (k : Int × Int)
    (h : alookup l1 k = none) : alookup (l1 ++ l2) k = alookup l2 k := by
  induction l1 with
  | nil => rfl
  | cons p rest ih =>
    obtain ⟨pk, pv⟩ := p
    simp only [alookup, List.cons_append] at h ⊢
    by_cases hk : k = pk
    · rw [if_pos hk] at h
      exact absurd h (by simp)
    · rw [if_neg hk] at h ⊢
      exact ih h

theorem alookup_map_row_none {α : Type} (l : List Nat) (f : Nat → α) (yv : Int)
    (k : Int × Int) (h : ∀ x ∈ l, k ≠ (yv, (x : Int))) :
    alookup (l.map fun (x : Nat) => ((yv, (x : Int)), f x)) k = none := by
  induction l with
  | nil => rfl
  | cons x rest ih =>
    simp only [List.map_cons, alookup]
    rw [if_neg (h x (List.mem_cons_self x rest))]
    exact ih fun z hz => h z (List.mem_cons_of_mem x hz)

theorem alookup_map_range_col {α : Type} (n : Nat) (f : Nat → α) (yv : Int) (c : Nat)
    (hc : c < n) :
    alookup ((List.range n).map fun (x : Nat) => ((yv, (x : Int)), f x)) (yv, (c : Int)) =
      some (f c) := by
  induction n with
  | zero => omega
  | succ m ih =>
    rw [List.range_succ, List.map_append]
    by_cases hcm : c < m
    · exact alookup_append_some _ _ _ _ (ih hcm)
    · have hce : c = m := by omega
      subst hce
      have hside :
          alookup ((List.range c).map fun (x : Nat) => ((yv, (x : Int)), f x))
            (yv, (c : Int)) = none := by
        apply alookup_map_row_none
        intro x hx hcontra
        have hxc : (c : Int) = (x : Int) := congrArg Prod.snd hcontra
        have hxm : x < c := List.mem_range.mp hx
        omega
      rw [alookup_append_none _ _ _ hside]
      simp [alookup]

theorem alookup_flatMap_none {α : Type} (l : List Nat)
    (rf : Nat → List ((Int × Int) × α)) (k : Int × Int)
    (h : ∀ y ∈ l, alookup (rf y) k = none) :
    alookup (l.flatMap rf) k = none := by
  induction l with
  | nil => rfl
  | cons y rest ih =>
    rw [List.flatMap_cons, alookup_append_none _ _ _ (h y (List.mem_cons_self y rest))]
    exact ih fun z hz => h z (List.mem_cons_of_mem y hz)

theorem alookup_flatMap_range {α : Type} (n : Nat)
    (rf : Nat → List ((Int × Int) × α)) (k : Int × Int) (r : Nat) (hr : r < n)
    (hother : ∀ y : Nat, y ≠ r → alookup (rf y) k = none) :
    alookup ((List.range n).flatMap rf) k = alookup (rf r) k := by
  induction n with
  | zero => omega
  | succ m ih =>
    rw [List.range_succ, List.flatMap_append, List.flatMap_cons, List.flatMap_nil,
      List.append_nil]
    by_cases hrm : r < m
    · have hfirst := ih hrm
      cases hv : alookup (rf r) k with
      | some v => rw [alookup_append_some _ _ _ _ (hfirst.trans hv)]
      | none =>
        rw [alookup_append_none _ _ _ (hfirst.trans hv), hother m (by omega)]
    · have hre : r = m := by omega
      subst hre
      have hside : alookup ((List.range r).flatMap rf) k = none := by
        apply alookup_flatMap_none
        intro y hy
        exact hother y (by have := List.mem_range.mp hy; omega)
      rw [alookup_append_none _ _ _ hside]

/-- The pixel the flush emits at an in-bounds device cell (r, c) is the
buffer entry there if present, else BLANK_PIXEL. -/
theorem flushWrites_alookup (g : GUIState) (r c : Int) (hr0 : 0 ≤ r)
    (hrh : r < g.screen_height) (hc0 : 0 ≤ c) (hcw : c < g.screen_width) :
    alookup (flushWrites g) (r, c) = some ((alookup g.pixels (r, c)).getD BLANK_PIXEL) := by
  have hrcast : ((r.toNat : Nat) : Int) = r := Int.toNat_of_nonneg hr0
  have hccast : ((c.toNat : Nat) : Int) = c := Int.toNat_of_nonneg hc0
  unfold flushWrites
  have hother : ∀ y : Nat, y ≠ r.toNat →
      alookup
        ((List.range g.screen_width.toNat).map fun (x : Nat) =>
          (((y : Int), (x : Int)), (alookup g.pixels ((y : Int), (x : Int))).getD BLANK_PIXEL))
        (r, c) = none := by
    intro y hy
    apply alookup_map_row_none
    intro x hx hcontra
    have h1 : r = (y : Int) := congrArg Prod.fst hcontra
    omega
  rw [alookup_flatMap_range g.screen_height.toNat _ (r, c) r.toNat (by omega) hother]
  rw [show ((r, c) : Int × Int) = (((r.toNat : Nat) : Int), ((c.toNat : Nat) : Int)) by
    rw [hrcast, hccast]]
  rw [alookup_map_range_col g.screen_width.toNat _ _ c.toNat (by omega)]

/- ### Claim theorems: C3, C4, C6, C9, C10 -/

/-- Claim C3: for every logical coordinate (x, y) with x < 0 or
x ≥ width or y < 0 or y ≥ height, draw is a no-op: the pixel buffer and
the whole state are unchanged, so the flush output of the frame is
unaffected. -/
theorem c3_draw_out_of_bounds_noop (g : GUIState) (x y : Int) (ch : Char) (a : Int)
    (h : x < 0 ∨ g.screen_width ≤ x ∨ y < 0 ∨ g.screen_height ≤ y) :
    draw g (x, y) ch a = g ∧ flushWrites (draw g (x, y) ch a) = flushWrites g := by
  have hno : draw g (x, y) ch a = g := by
    apply draw_of_not_in_bounds
    simp only
    omega
  exact ⟨hno, by rw [hno]⟩

/-- Witness for C3 at a concrete input: drawing at x = 80 on an 80 by 24
screen leaves the state unchanged. -/
theorem c3_witness :
    draw demoState (80, 0) 'Z' 0 = demoState ∧
      flushWrites (draw demoState (80, 0) 'Z' 0) = flushWrites demoState :=
  c3_draw_out_of_bounds_noop demoState 80 0 'Z' 0 (by decide)

/-- Claim C4: for positive width and height, get_origin_reference
returns the closed-form offset for each of the nine anchors: x component
0 for the LEFT anchors, floor of width over two for the CENTER column,
width - 1 for the RIGHT anchors; y component 0 for the BOTTOM anchors,
floor of height over two for the CENTER row, height - 1 for the TOP
anchors. (Lean Int division by a positive divisor is floor division.) -/
theorem c4_origin_closed_forms (g : GUIState)
    (hw : 0 < g.screen_width) (hh : 0 < g.screen_height) :
    get_origin_reference g TOP_LEFT = .ok (0, g.screen_height - 1) ∧
    get_origin_reference g TOP_CENTER = .ok (g.screen_width / 2, g.screen_height - 1) ∧
    get_origin_reference g TOP_RIGHT = .ok (g.screen_width - 1, g.screen_height - 1) ∧
    get_origin_reference g CENTER_LEFT = .ok (0, g.screen_height / 2) ∧
    get_origin_reference g CENTER = .ok (g.screen_width / 2, g.screen_height / 2) ∧
    get_origin_reference g CENTER_RIGHT = .ok (g.screen_width - 1, g.screen_height / 2) ∧
    get_origin_reference g BOTTOM_LEFT = .ok (0, 0) ∧
    get_origin_reference g BOTTOM_CENTER = .ok (g.screen_width / 2, 0) ∧
    get_origin_reference g BOTTOM_RIGHT = .ok (g.screen_width - 1, 0) :=
  ⟨rfl, rfl, rfl, rfl, rfl, rfl, rfl, rfl, rfl⟩

/-- Witness for C4: CENTER on an 80 by 24 screen resolves to (40, 12). -/
theorem c4_witness :
    get_origin_reference demoState CENTER = .ok (40, 12) :=
  (c4_origin_closed_forms demoState (by decide) (by decide)).2.2.2.2.1

/-- Claim C6: get_directional_reference raises ValueError for every
argument outside the eight direction constants 0 through 7, and
get_origin_reference raises ValueError for every argument outside the
nine origin constants 8 through 16; neither silently substitutes a
default. -/
theorem c6_unknown_arguments_error :
    (∀ d : Int, ¬(0 ≤ d ∧ d ≤ 7) →
      get_directional_reference d = .error ("Unknown direction " ++ toString d)) ∧
    (∀ (g : GUIState) (o : Int), ¬(8 ≤ o ∧ o ≤ 16) →
      get_origin_reference g o = .error ("Unknown origin " ++ toString o)) := by
  constructor
  · intro d h
    simp only [get_directional_reference, LEFT, UP_LEFT, UP, UP_RIGHT, RIGHT,
      DOWN_RIGHT, DOWN, DOWN_LEFT]
    repeat rw [if_neg (by omega)]
  · intro g o h
    simp only [get_origin_reference, TOP_LEFT, TOP_CENTER, TOP_RIGHT, CENTER_LEFT,
      CENTER, CENTER_RIGHT, BOTTOM_LEFT, BOTTOM_CENTER, BOTTOM_RIGHT]
    repeat rw [if_neg (by omega)]

/-- Witness for C6: direction 42 and origin 3 are rejected with errors. -/
theorem c6_witness :
    get_directional_reference 42 = .error ("Unknown direction " ++ toString (42 : Int)) ∧
    get_origin_reference demoState 3 = .error ("Unknown origin " ++ toString (3 : Int)) :=
  ⟨c6_unknown_arguments_error.1 42 (by decide),
   c6_unknown_arguments_error.2 demoState 3 (by decide)⟩

/-- Claim C10: an in-bounds draw call can change at most the binding of
the device key (height - (y + 1), x): every other key keeps exactly its
previous binding, and draw never removes an existing entry. -/
theorem c10_draw_frame_effect (g : GUIState) (x y : Int) (ch : Char) (a : Int)
    (h : 0 ≤ x ∧ x < g.screen_width ∧ 0 ≤ y ∧ y < g.screen_height) :
    (∀ k : Int × Int, k ≠ (g.screen_height - (y + 1), x) →
      alookup (draw g (x, y) ch a).pixels k = alookup g.pixels k) ∧
    (∀ (k : Int × Int) (v : Pixel), alookup g.pixels k = some v →
      ∃ w : Pixel, alookup (draw g (x, y) ch a).pixels k = some w) := by
  constructor
  · intro k hk
    exact draw_preserves_other g x y ch a k hk
  · intro k v hv
    by_cases hk : k = (g.screen_height - (y + 1), x)
    · subst hk
      exact ⟨(ch, a), draw_writes g x y ch a h⟩
    · exact ⟨v, by rw [draw_preserves_other g x y ch a k hk]; exact hv⟩

/-- Witness for C10: drawing at (0, 0) on an 80 by 24 screen with an
existing entry at (0, 5) keeps that entry and its value. -/
theorem c10_witness :
    alookup
      (draw { demoState with pixels := [((0, 5), ('Q', 7))] } (0, 0) 'H' 0).pixels
      (0, 5) = alookup ({ demoState with pixels := [((0, 5), ('Q', 7))] } : GUIState).pixels (0, 5) :=
  (c10_draw_frame_effect { demoState with pixels := [((0, 5), ('Q', 7))] } 0 0 'H' 0
    (by decide)).1 (0, 5) (by decide)

/-- Claim C1: for every logical (x, y) with 0 ≤ x < width and
0 ≤ y < height, draw stores the (character, attr) pair in the pixel
buffer under the device key (height - (y + 1), x), and the flush of that
frame emits exactly that character and style at that device cell. -/
theorem c1_draw_stores_and_flush_emits (g : GUIState) (x y : Int) (ch : Char) (a : Int)
    (hx0 : 0 ≤ x) (hxw : x < g.screen_width) (hy0 : 0 ≤ y) (hyh : y < g.screen_height) :
    alookup (draw g (x, y) ch a).pixels (g.screen_height - (y + 1), x) = some (ch, a) ∧
    alookup (flushWrites (draw g (x, y) ch a)) (g.screen_height - (y + 1), x) =
      some (ch, a) := by
  have hwrites := draw_writes g x y ch a ⟨hx0, hxw, hy0, hyh⟩
  refine ⟨hwrites, ?_⟩
  have hfl := flushWrites_alookup (draw g (x, y) ch a) (g.screen_height - (y + 1)) x
    (by omega) (by rw [draw_screen_height]; omega) hx0 (by rw [draw_screen_width]; omega)
  rw [hwrites] at hfl
  simpa using hfl

/-- Witness for C1: drawing H at logical (0, 0) on an 80 by 24 screen
stores it under device key (23, 0) and the flush emits it there. -/
theorem c1_witness :
    alookup (draw demoState (0, 0) 'H' 0).pixels (23, 0) = some ('H', 0) ∧
    alookup (flushWrites (draw demoState (0, 0) 'H' 0)) (23, 0) = some ('H', 0) :=
  c1_draw_stores_and_flush_emits demoState 0 0 'H' 0 (by decide) (by decide)
    (by decide) (by decide)

/-- Claim C8: if two draw calls within one frame resolve to the same
device cell, the (character, style) pair of the second call is the one stored
in the pixel buffer and the one the flush of the frame emits at that
cell. -/
theorem c8_later_draw_wins (g : GUIState) (x1 y1 x2 y2 : Int) (ca cb : Char) (a1 a2 : Int)
    (h1 : 0 ≤ x1 ∧ x1 < g.screen_width ∧ 0 ≤ y1 ∧ y1 < g.screen_height)
    (h2 : 0 ≤ x2 ∧ x2 < g.screen_width ∧ 0 ≤ y2 ∧ y2 < g.screen_height)
    (hsame : ((g.screen_height - (y1 + 1), x1) : Int × Int) =
      (g.screen_height - (y2 + 1), x2)) :
    alookup (draw (draw g (x1, y1) ca a1) (x2, y2) cb a2).pixels
      (g.screen_height - (y2 + 1), x2) = some (cb, a2) ∧
    alookup (flushWrites (draw (draw g (x1, y1) ca a1) (x2, y2) cb a2))
      (g.screen_height - (y2 + 1), x2) = some (cb, a2) := by
  have hdim_w : (draw g (x1, y1) ca a1).screen_width = g.screen_width :=
    draw_screen_width g (x1, y1) ca a1
  have hdim_h : (draw g (x1, y1) ca a1).screen_height = g.screen_height :=
    draw_screen_height g (x1, y1) ca a1
  have hwrites := draw_writes (draw g (x1, y1) ca a1) x2 y2 cb a2
    (by rw [hdim_w, hdim_h]; exact h2)
  rw [hdim_h] at hwrites
  refine ⟨hwrites, ?_⟩
  have hfl := flushWrites_alookup (draw (draw g (x1, y1) ca a1) (x2, y2) cb a2)
    (g.screen_height - (y2 + 1)) x2
    (by omega)
    (by rw [draw_screen_height, hdim_h]; omega)
    (by omega)
    (by rw [draw_screen_width, hdim_w]; omega)
  rw [hwrites] at hfl
  simpa using hfl

/-- Witness for C8: drawing A then B at logical (0, 0) on an 80 by 24
screen leaves B stored at device cell (23, 0) and flushed there. -/
theorem c8_witness :
    alookup (draw (draw demoState (0, 0) 'A' 0) (0, 0) 'B' 0).pixels (23, 0) =
      some ('B', 0) ∧
    alookup (flushWrites (draw (draw demoState (0, 0) 'A' 0) (0, 0) 'B' 0)) (23, 0) =
      some ('B', 0) :=
  c8_later_draw_wins demoState 0 0 0 0 'A' 'B' 0 0 (by decide) (by decide) (by decide)

/- ### Lemmas about the loops and the running flag -/

theorem drawChars_running (s : List Char) :
    ∀ (g : GUIState) (ox oy x y dx dy a : Int) (i : Nat),
      (drawChars ox oy x y dx dy a g i s).running = g.running := by
  induction s with
  | nil => intro g ox oy x y dx dy a i; rfl
  | cons ch rest ih =>
    intro g ox oy x y dx dy a i
    rw [drawChars, ih, draw_running]

theorem draw_string_running (g : GUIState) (coord : Int × Int) (s : List Char)
    (attr d o : Int) (g' : GUIState) (h : draw_string g coord s attr d o = .ok g') :
    g'.running = g.running := by
  unfold draw_string at h
  cases ho : get_origin_reference g o with
  | error e =>
    rw [ho] at h
    exact Except.noConfusion h
  | ok orf =>
    rw [ho] at h
    cases hd : get_directional_reference d with
    | error e =>
      rw [hd] at h
      exact Except.noConfusion h
    | ok dr =>
      rw [hd] at h
      have h2 : (Except.ok (drawChars orf.1 orf.2 coord.1 coord.2 dr.1 dr.2 attr g 0 s) :
          Except String GUIState) = Except.ok g' := h
      have h3 := Except.ok.inj h2
      rw [← h3]
      exact drawChars_running s g orf.1 orf.2 coord.1 coord.2 dr.1 dr.2 attr 0

theorem renderLoop_not_running (hooks : Hooks) (dims : Nat → Int × Int) (fuel n : Nat)
    (g : GUIState) (h : g.running = false) : renderLoop hooks dims fuel n g = g := by
  cases fuel with
  | zero => rfl
  | succ m => simp [renderLoop, h]

theorem inputLoop_not_running (keypress : GUIState → Int → GUIState × Option Exc)
    (keys : Nat → Int) (fuel n : Nat) (g : GUIState) (h : g.running = false) :
    inputLoop keypress keys fuel n g = g := by
  cases fuel with
  | zero => rfl
  | succ m => simp [inputLoop, h]

theorem runTick_ok_pixels (hooks : Hooks) (dims : Int × Int) (g g2 : GUIState)
    (h : runTick hooks dims g = (g2, none)) : g2.pixels = [] := by
  simp only [runTick] at h
  split at h
  · exact Option.noConfusion (congrArg Prod.snd h)
  · split at h
    · simp at h
    · split at h
      · exact absurd (congrArg Prod.snd h) (by simp)
      · have h2 := congrArg Prod.fst h
        simp only [Prod.fst] at h2
        rw [← h2]

/-- Claim C9: the running flag is true from construction; stop sets it
false and is idempotent; and once the flag is false no operation of the
controller sets it true again: draw and draw_string never change it, and
both loops return the state unchanged without running any hook. -/
theorem c9_running_lifecycle (g : GUIState) (coord : Int × Int) (ch : Char) (a : Int) :
    initial.running = true ∧
    (stop g).running = false ∧
    stop (stop g) = stop g ∧
    (draw g coord ch a).running = g.running ∧
    (∀ (s : List Char) (attr d o : Int) (g' : GUIState),
      draw_string g coord s attr d o = .ok g' → g'.running = g.running) ∧
    (g.running = false → ∀ (hooks : Hooks) (dims : Nat → Int × Int) (fuel n : Nat),
      renderLoop hooks dims fuel n g = g) ∧
    (g.running = false → ∀ (kp : GUIState → Int → GUIState × Option Exc)
      (keys : Nat → Int) (fuel n : Nat), inputLoop kp keys fuel n g = g) := by
  refine ⟨rfl, rfl, rfl, draw_running g coord ch a, ?_, ?_, ?_⟩
  · intro s attr d o g' h
    exact draw_string_running g coord s attr d o g' h
  · intro h hooks dims fuel n
    exact renderLoop_not_running hooks dims fuel n g h
  · intro h kp keys fuel n
    exact inputLoop_not_running kp keys fuel n g h

/-- Witness for C9: a stopped controller stays stopped and a render loop
run on it with no-op hooks returns it unchanged. -/
theorem c9_witness :
    (stop initial).running = false ∧
    renderLoop ⟨fun g => (g, none), fun g => (g, none), fun g => (g, none)⟩
      (fun _ => (24, 80)) 5 0 (stop initial) = stop initial :=
  ⟨(c9_running_lifecycle (stop initial) (0, 0) 'A' 0).2.1,
   (c9_running_lifecycle (stop initial) (0, 0) 'A' 0).2.2.2.2.2.1 rfl
     ⟨fun g => (g, none), fun g => (g, none), fun g => (g, none)⟩ (fun _ => (24, 80)) 5 0⟩

/-- Claim C5 (amended): an exception from pre_render, render or
post_render, or a non-interrupt exception from keypress, is caught at
the loop boundary: the controller is stopped, the failure is logged with
its type and message, and the loop functions return a state instead of
propagating; a KeyboardInterrupt or EOFError raised by keypress likewise
stops the controller but is logged as a keyboard-interrupt notice
without its type and message. Once the running flag is false, both loops
return the state unchanged, so no hooks of any subsequent tick execute. -/
theorem c5_hook_failure_amended :
    (∀ (hooks : Hooks) (dims : Int × Int) (g g1 : GUIState) (e : Exc),
      runTick hooks dims g = (g1, some e) →
      renderStep hooks dims g =
        { g1 with running := false, log := g1.log ++ [renderExcMsg e] }) ∧
    (∀ (kp : GUIState → Int → GUIState × Option Exc) (key : Int) (g g1 : GUIState) (e : Exc),
      key ≠ -1 → kp g key = (g1, some e) → e.interrupt = false →
      inputStep kp key g =
        { g1 with running := false, log := g1.log ++ [inputExcMsg e] }) ∧
    (∀ (kp : GUIState → Int → GUIState × Option Exc) (key : Int) (g g1 : GUIState) (e : Exc),
      key ≠ -1 → kp g key = (g1, some e) → e.interrupt = true →
      inputStep kp key g =
        { g1 with running := false, log := g1.log ++ [interruptLogMsg] }) ∧
    (∀ g0 : GUIState, g0.running = false →
      (∀ (hooks : Hooks) (dims : Nat → Int × Int) (fuel n : Nat),
        renderLoop hooks dims fuel n g0 = g0) ∧
      (∀ (kp : GUIState → Int → GUIState × Option Exc) (keys : Nat → Int) (fuel n : Nat),
        inputLoop kp keys fuel n g0 = g0)) := by
  refine ⟨?_, ?_, ?_, ?_⟩
  · intro hooks dims g g1 e h
    unfold renderStep
    rw [h]
  · intro kp key g g1 e hkey hkp hint
    simp only [inputStep, if_neg hkey, hkp]
    rw [hint]
    simp
  · intro kp key g g1 e hkey hkp hint
    simp only [inputStep, if_neg hkey, hkp]
    rw [hint]
    simp
  · intro g0 h
    exact ⟨fun hooks dims fuel n => renderLoop_not_running hooks dims fuel n g0 h,
      fun kp keys fuel n => inputLoop_not_running kp keys fuel n g0 h⟩

/-- Counterexample for C5 as frozen: a KeyboardInterrupt raised by the
keypress hook is caught by the first except clause of input_thread and
logged as the keyboard-interrupt notice, not with its type and message. -/
theorem c5_counterexample :
    (inputStep (fun g _ => (g, some ⟨true, "KeyboardInterrupt", "boom"⟩)) 10 demoState).log =
      [interruptLogMsg] ∧
    (inputStep (fun g _ => (g, some ⟨true, "KeyboardInterrupt", "boom"⟩)) 10 demoState).log ≠
      [inputExcMsg ⟨true, "KeyboardInterrupt", "boom"⟩] ∧
    (inputStep (fun g _ => (g, some ⟨true, "KeyboardInterrupt", "boom"⟩)) 10 demoState).running =
      false := by
  refine ⟨rfl, ?_, rfl⟩
  decide

/-- Witness for C5: a render hook that raises stops the controller, logs
the type and message, and a later loop run changes nothing. -/
theorem c5_witness :
    renderStep ⟨fun g => (g, some ⟨false, "ValueError", "tick 5"⟩), fun g => (g, none),
        fun g => (g, none)⟩ (24, 80) demoState =
      { demoState with
        screen_height := 24,
        screen_width := 80,
        running := false,
        log := demoState.log ++ [renderExcMsg ⟨false, "ValueError", "tick 5"⟩] } :=
  c5_hook_failure_amended.1
    ⟨fun g => (g, some ⟨false, "ValueError", "tick 5"⟩), fun g => (g, none),
      fun g => (g, none)⟩ (24, 80) demoState
    { demoState with screen_height := 24, screen_width := 80 }
    ⟨false, "ValueError", "tick 5"⟩ rfl

/-- Claim C7: the pixel buffer is empty at construction; a tick whose
hooks all return clears the buffer after the flush; a flush of an empty
buffer emits nothing but blank pixels; and after any loop iteration
either the buffer is empty again or the controller is stopped, so every
tick that begins does so with an empty buffer. -/
theorem c7_buffer_empty_per_tick (hooks : Hooks) (dims : Int × Int) (g g2 : GUIState) :
    initial.pixels = [] ∧
    (runTick hooks dims g = (g2, none) → g2.pixels = []) ∧
    (g.pixels = [] → ∀ p ∈ flushWrites g, p.2 = BLANK_PIXEL) ∧
    ((renderStep hooks dims g).pixels = [] ∨ (renderStep hooks dims g).running = false) := by
  refine ⟨rfl, fun h => runTick_ok_pixels hooks dims g g2 h, ?_, ?_⟩
  · intro hpix p hp
    unfold flushWrites at hp
    rw [hpix] at hp
    simp only [List.mem_flatMap, List.mem_map] at hp
    obtain ⟨yy, hy, xx, hx, hpe⟩ := hp
    rw [← hpe]
    rfl
  · unfold renderStep
    rcases htick : runTick hooks dims g with ⟨gt, et⟩
    cases et with
    | none => exact Or.inl (runTick_ok_pixels hooks dims g gt htick)
    | some e => exact Or.inr rfl

/-- Witness for C7: a no-op tick on an 80 by 24 state ends with an empty
buffer, and the flush of the untouched demo state is all blanks. -/
theorem c7_witness :
    (runTick ⟨fun g => (g, none), fun g => (g, none), fun g => (g, none)⟩
      (24, 80) demoState).1.pixels = [] ∧
    (∀ p ∈ flushWrites demoState, p.2 = BLANK_PIXEL) :=
  ⟨(c7_buffer_empty_per_tick
      ⟨fun g => (g, none), fun g => (g, none), fun g => (g, none)⟩ (24, 80) demoState
      (runTick ⟨fun g => (g, none), fun g => (g, none), fun g => (g, none)⟩
        (24, 80) demoState).1).2.1 rfl,
   (c7_buffer_empty_per_tick
      ⟨fun g => (g, none), fun g => (g, none), fun g => (g, none)⟩ (24, 80) demoState
      demoState).2.2.1 rfl⟩

/- ### Lemmas for draw_string -/

theorem deviceKey_draw (g : GUIState) (cd : Int × Int) (ch : Char) (a : Int) (c : Int × Int) :
    deviceKey (draw g cd ch a) c = deviceKey g c := by
  simp [deviceKey, draw_screen_height]

theorem inBounds_draw (g : GUIState) (cd : Int × Int) (ch : Char) (a : Int) (c : Int × Int) :
    inBoundsCoord (draw g cd ch a) c ↔ inBoundsCoord g c := by
  simp [inBoundsCoord, draw_screen_width, draw_screen_height]

theorem directional_step_nonzero (d dx dy : Int)
    (h : get_directional_reference d = .ok (dx, dy)) : ¬(dx = 0 ∧ dy = 0) := by
  unfold get_directional_reference at h
  repeat' split at h
  all_goals first
    | exact Except.noConfusion h
    | (simp only [Except.ok.injEq, Prod.mk.injEq] at h; omega)

theorem deviceKey_targetCoord_injective (g : GUIState) (ox oy x y dx dy : Int) (i j : Nat)
    (hstep : ¬(dx = 0 ∧ dy = 0)) (hij : i ≠ j) :
    deviceKey g (targetCoord ox oy x y dx dy i) ≠
      deviceKey g (targetCoord ox oy x y dx dy j) := by
  intro heq
  simp only [deviceKey, targetCoord] at heq
  have h1 : g.screen_height - ((oy + (y + dy * (i : Int))) + 1) =
      g.screen_height - ((oy + (y + dy * (j : Int))) + 1) := congrArg Prod.fst heq
  have h2 : ox + (x + dx * (i : Int)) = ox + (x + dx * (j : Int)) := congrArg Prod.snd heq
  have hdy : dy * (i : Int) = dy * (j : Int) := by linarith
  have hdx : dx * (i : Int) = dx * (j : Int) := by linarith
  by_cases hdx0 : dx = 0
  · have hdy0 : dy ≠ 0 := fun hc => hstep ⟨hdx0, hc⟩
    have hcancel : (i : Int) = (j : Int) := mul_left_cancel₀ hdy0 hdy
    omega
  · have hcancel : (i : Int) = (j : Int) := mul_left_cancel₀ hdx0 hdx
    omega

theorem drawChars_preserve (s : List Char) :
    ∀ (g : GUIState) (ox oy x y dx dy a : Int) (i0 : Nat) (K : Int × Int),
      (∀ i1 : Nat, i0 ≤ i1 → inBoundsCoord g (targetCoord ox oy x y dx dy i1) →
        K ≠ deviceKey g (targetCoord ox oy x y dx dy i1)) →
      alookup (drawChars ox oy x y dx dy a g i0 s).pixels K = alookup g.pixels K := by
  induction s with
  | nil => intro g ox oy x y dx dy a i0 K hK; rfl
  | cons ch rest ih =>
    intro g ox oy x y dx dy a i0 K hK
    rw [drawChars]
    have hyp1 : ∀ i1 : Nat, i0 + 1 ≤ i1 →
        inBoundsCoord
          (draw g (ox + (x + dx * (i0 : Int)), oy + (y + dy * (i0 : Int))) ch a)
          (targetCoord ox oy x y dx dy i1) →
        K ≠ deviceKey
          (draw g (ox + (x + dx * (i0 : Int)), oy + (y + dy * (i0 : Int))) ch a)
          (targetCoord ox oy x y dx dy i1) := by
      intro i1 h1 hb1
      rw [inBounds_draw] at hb1
      rw [deviceKey_draw]
      exact hK i1 (by omega) hb1
    rw [ih (draw g (ox + (x + dx * (i0 : Int)), oy + (y + dy * (i0 : Int))) ch a)
      ox oy x y dx dy a (i0 + 1) K hyp1]
    by_cases hb : inBoundsCoord g (targetCoord ox oy x y dx dy i0)
    · exact draw_preserves_other g (ox + (x + dx * (i0 : Int)))
        (oy + (y + dy * (i0 : Int))) ch a K (hK i0 le_rfl hb)
    · rw [draw_of_not_in_bounds g (ox + (x + dx * (i0 : Int)), oy + (y + dy * (i0 : Int)))
        ch a hb]

theorem drawChars_writes (s : List Char) :
    ∀ (g : GUIState) (ox oy x y dx dy a : Int) (i0 j : Nat) (hj : j < s.length),
      ¬(dx = 0 ∧ dy = 0) →
      inBoundsCoord g (targetCoord ox oy x y dx dy (i0 + j)) →
      alookup (drawChars ox oy x y dx dy a g i0 s).pixels
        (deviceKey g (targetCoord ox oy x y dx dy (i0 + j))) = some (s.get ⟨j, hj⟩, a) := by
  induction s with
  | nil => intro g ox oy x y dx dy a i0 j hj _ _; simp at hj
  | cons ch rest ih =>
    intro g ox oy x y dx dy a i0 j hj hstep hb
    rw [drawChars]
    cases j with
    | zero =>
      simp only [Nat.add_zero] at hb ⊢
      have hpres := drawChars_preserve rest
        (draw g (ox + (x + dx * (i0 : Int)), oy + (y + dy * (i0 : Int))) ch a)
        ox oy x y dx dy a (i0 + 1) (deviceKey g (targetCoord ox oy x y dx dy i0)) ?hyp
      · rw [hpres]
        exact draw_writes g (ox + (x + dx * (i0 : Int))) (oy + (y + dy * (i0 : Int)))
          ch a hb
      case hyp =>
        intro i1 h1 hb1
        rw [deviceKey_draw]
        exact deviceKey_targetCoord_injective g ox oy x y dx dy i0 i1 hstep (by omega)
    | succ jj =>
      have harith : i0 + (jj + 1) = i0 + 1 + jj := by omega
      rw [harith] at hb ⊢
      have hb1 : inBoundsCoord
          (draw g (ox + (x + dx * (i0 : Int)), oy + (y + dy * (i0 : Int))) ch a)
          (targetCoord ox oy x y dx dy (i0 + 1 + jj)) :=
        (inBounds_draw g _ ch a _).mpr hb
      have hrec := ih (draw g (ox + (x + dx * (i0 : Int)), oy + (y + dy * (i0 : Int))) ch a)
        ox oy x y dx dy a (i0 + 1) jj (by simpa using hj) hstep hb1
      rw [deviceKey_draw] at hrec
      exact hrec

/-- Claim C2: for a direction d with unit step (dx, dy), an origin o
resolving to (ox, oy), base (x, y) and a string s, draw_string writes
character s[i] at logical coordinate
(ox + x + dx * i, oy + y + dy * i) for each index i whose cell is in
bounds, each character being bounds-checked independently, and leaves
every device key that is not a target of some in-bounds index
unchanged, so out-of-bounds characters are individually skipped. -/
theorem c2_draw_string_directional (g : GUIState) (x y : Int) (s : List Char)
    (attr d o dx dy ox oy : Int)
    (hd : get_directional_reference d = .ok (dx, dy))
    (ho : get_origin_reference g o = .ok (ox, oy))
    (i : Nat) (hi : i < s.length)
    (hb : inBoundsCoord g (targetCoord ox oy x y dx dy i)) :
    ∃ g', draw_string g (x, y) s attr d o = .ok g' ∧
      alookup g'.pixels (deviceKey g (targetCoord ox oy x y dx dy i)) =
        some (s.get ⟨i, hi⟩, attr) ∧
      ∀ K : Int × Int,
        (∀ i1 : Nat, inBoundsCoord g (targetCoord ox oy x y dx dy i1) →
          K ≠ deviceKey g (targetCoord ox oy x y dx dy i1)) →
        alookup g'.pixels K = alookup g.pixels K := by
  have hstep : ¬(dx = 0 ∧ dy = 0) := directional_step_nonzero d dx dy hd
  refine ⟨drawChars ox oy x y dx dy attr g 0 s, ?_, ?_, ?_⟩
  · unfold draw_string
    rw [ho, hd]
    rfl
  · have hw := drawChars_writes s g ox oy x y dx dy attr 0 i hi hstep
      (by simpa using hb)
    simpa using hw
  · intro K hK
    exact drawChars_preserve s g ox oy x y dx dy attr 0 K (fun i1 _ hb1 => hK i1 hb1)

/-- Witness for C2: on an 80 by 24 screen, draw_string (0, 0) HI with
direction RIGHT and origin BOTTOM_LEFT stores H at device cell (23, 0)
and I at device cell (23, 1). -/
theorem c2_witness :
    (∃ g', draw_string demoState (0, 0) ['H', 'I'] 0 RIGHT BOTTOM_LEFT = .ok g' ∧
      alookup g'.pixels (23, 0) = some ('H', 0)) ∧
    (∃ g', draw_string demoState (0, 0) ['H', 'I'] 0 RIGHT BOTTOM_LEFT = .ok g' ∧
      alookup g'.pixels (23, 1) = some ('I', 0)) := by
  constructor
  · obtain ⟨g', heq, hlook, hrest⟩ := c2_draw_string_directional demoState 0 0 ['H', 'I']
      0 RIGHT BOTTOM_LEFT 1 0 0 0 rfl rfl 0 (by decide) (by decide)
    refine ⟨g', heq, ?_⟩
    rw [show ((23, 0) : Int × Int) = deviceKey demoState (targetCoord 0 0 0 0 1 0 0)
      by decide]
    exact hlook
  · obtain ⟨g', heq, hlook, hrest⟩ := c2_draw_string_directional demoState 0 0 ['H', 'I']
      0 RIGHT BOTTOM_LEFT 1 0 0 0 rfl rfl 1 (by decide) (by decide)
    refine ⟨g', heq, ?_⟩
    rw [show ((23, 1) : Int × Int) = deviceKey demoState (targetCoord 0 0 0 0 1 0 1)
      by decide]
    exact hlook

end LibMira
